import Mathlib

/-!
Verification of the data-transform core of the Stack Overflow Survey 2024
analysis repository (`src/data_processing.py` and the duplicated functions in
`src/save_visualizations_standalone.py`).

Cell values of a pandas column are modelled by `Value`: a text value, a finite
numeric value (rationals stand in for the IEEE floats of the source; every
numeric literal exercised by the claims is exactly representable), or the
missing marker (pandas `NaN` / `None`).  Python string primitives
(`str.strip`, `str.lower`, `str.replace`, `str.split`, the `in` substring
test) are embedded as executable functions over `List Char`.
-/

set_option autoImplicit false

inductive Value where
  | str (s : String)
  | num (q : ℚ)
  | missing
  deriving DecidableEq

/-- Whitespace test used by the embedded Python string primitives. -/
def pyWs (c : Char) : Bool := c.isWhitespace

/-- Python `str.strip()`: drop whitespace from both ends. -/
def stripChars (l : List Char) : List Char :=
  ((l.dropWhile pyWs).reverse.dropWhile pyWs).reverse

/-- Python `str.strip()` at `String` level. -/
def pyStrip (s : String) : String := String.mk (stripChars s.toList)

/-- Does `hay` start with `needle`? -/
def lStartsWith : List Char → List Char → Bool
  | [], _ => true
  | _ :: _, [] => false
  | a :: n, b :: h => a == b && lStartsWith n h

/-- Python's substring test `needle in hay`. -/
def containsSub (n : List Char) : List Char → Bool
  | [] => lStartsWith n []
  | c :: t => lStartsWith n (c :: t) || containsSub n t

/-- Fuel-indexed core of `replaceAll`; the fuel starts at the length of the
string argument and never drops below the length of the remaining suffix, so
the `0, _ :: _` case is unreachable. -/
def replaceAllAux (needle repl : List Char) : ℕ → List Char → List Char
  | _, [] => []
  | 0, s => s
  | fuel + 1, c :: t =>
    if lStartsWith needle (c :: t) && !needle.isEmpty then
      repl ++ replaceAllAux needle repl fuel (t.drop (needle.length - 1))
    else
      c :: replaceAllAux needle repl fuel t

/-- Python `str.replace(needle, repl)`: replace every occurrence, scanning left
to right.  (The source only ever calls it with non-empty needles.) -/
def replaceAll (needle repl s : List Char) : List Char :=
  replaceAllAux needle repl s.length s

/-- Python `s.replace(needle, repl)` at `String` level. -/
def pyReplace (s needle repl : String) : String :=
  String.mk (replaceAll needle.toList repl.toList s.toList)

/-- Python `str.lower()` (ASCII case folding; no claim involves non-ASCII). -/
def pyLower (s : String) : List Char := s.toList.map Char.toLower

/-- The normalized form `org_size.lower().strip()` computed by
`categorize_company` before its substring tests. -/
def orgNorm (s : String) : List Char := stripChars (pyLower s)

/-- `categorize_company` from `src/data_processing.py` (lines 130-157).  Its
Python argument is a column value that is either text or missing, modelled as
`Option String`. -/
def categorize_company (orgSize : Option String) : String :=
  match orgSize with
  | none => "Unknown"
  | some s =>
    let t := orgNorm s
    if ["1-10", "11-50"].any (fun x => containsSub x.toList t) then "Startup"
    else if ["51-200", "201-500"].any (fun x => containsSub x.toList t) then "Mid-sized"
    else if ["500", "1000", "5000", "5000+"].any (fun x => containsSub x.toList t) then "Enterprise"
    else "Other"

example : categorize_company none = "Unknown" := by decide
example : categorize_company (some "1-10 employees") = "Startup" := by decide
example : categorize_company (some " 201-500 Employees ") = "Mid-sized" := by decide
example : categorize_company (some "10,001 or more") = "Other" := by decide
example : categorize_company (some "1-10 and 201-500") = "Startup" := by decide

/-- The Startup test of `categorize_company` on the normalized input. -/
def startupHit (s : String) : Bool :=
  containsSub "1-10".toList (orgNorm s) || containsSub "11-50".toList (orgNorm s)

/-- The Mid-sized test of `categorize_company` on the normalized input. -/
def midHit (s : String) : Bool :=
  containsSub "51-200".toList (orgNorm s) || containsSub "201-500".toList (orgNorm s)

/-- The Enterprise test of `categorize_company` on the normalized input. -/
def entHit (s : String) : Bool :=
  containsSub "500".toList (orgNorm s) || containsSub "1000".toList (orgNorm s) ||
    containsSub "5000".toList (orgNorm s) || containsSub "5000+".toList (orgNorm s)

lemma categorize_company_some (s : String) :
    categorize_company (some s) =
      if startupHit s then "Startup"
      else if midHit s then "Mid-sized"
      else if entHit s then "Enterprise"
      else "Other" := by
  simp only [categorize_company, startupHit, midHit, entHit, List.any_cons, List.any_nil,
    Bool.or_false, Bool.or_assoc]

/-- C4 counterexample: the input "1-10 and 201-500" contains "201-500" (after
lowercasing and trimming) yet `categorize_company` classifies it "Startup",
not "Mid-sized", because the Startup test fires first. -/
theorem categorize_company_c4_counterexample :
    containsSub ("201-500".toList) (orgNorm "1-10 and 201-500") = true ∧
    categorize_company (some "1-10 and 201-500") = "Startup" ∧
    ("Startup" : String) ≠ "Mid-sized" := by
  refine ⟨by decide, by decide, by decide⟩

/-- C4 (amended): `categorize_company` is a total function: missing input gives
"Unknown"; otherwise the input is lowercased and trimmed and the Startup,
Mid-sized, Enterprise tests are tried in order, falling through to "Other";
the output is always one of the five labels.  An input containing "201-500" is
never classified "Enterprise", and is classified "Mid-sized" provided it
contains neither "1-10" nor "11-50". -/
theorem categorize_company_c4 :
    categorize_company none = "Unknown" ∧
    (∀ s : String,
      (startupHit s = true → categorize_company (some s) = "Startup") ∧
      (startupHit s = false → midHit s = true → categorize_company (some s) = "Mid-sized") ∧
      (startupHit s = false → midHit s = false → entHit s = true →
        categorize_company (some s) = "Enterprise") ∧
      (startupHit s = false → midHit s = false → entHit s = false →
        categorize_company (some s) = "Other")) ∧
    (∀ v : Option String,
      categorize_company v ∈ ["Unknown", "Startup", "Mid-sized", "Enterprise", "Other"]) ∧
    (∀ s : String, containsSub ("201-500".toList) (orgNorm s) = true →
      categorize_company (some s) ≠ "Enterprise" ∧
      (containsSub ("1-10".toList) (orgNorm s) = false →
        containsSub ("11-50".toList) (orgNorm s) = false →
        categorize_company (some s) = "Mid-sized")) := by
  refine ⟨rfl, ?_, ?_, ?_⟩
  · intro s
    refine ⟨fun h1 => ?_, fun h1 h2 => ?_, fun h1 h2 h3 => ?_, fun h1 h2 h3 => ?_⟩
    · simp [categorize_company_some, h1]
    · simp [categorize_company_some, h1, h2]
    · simp [categorize_company_some, h1, h2, h3]
    · simp [categorize_company_some, h1, h2, h3]
  · intro v
    match v with
    | none => simp [categorize_company]
    | some s =>
      rw [categorize_company_some]
      split
      · simp
      · split
        · simp
        · split <;> simp
  · intro s h
    have hmid : midHit s = true := by
      simp only [midHit, Bool.or_eq_true]
      exact Or.inr h
    refine ⟨?_, ?_⟩
    · by_cases hs : startupHit s = true
      · simp [categorize_company_some, hs]
      · rw [Bool.not_eq_true] at hs
        simp [categorize_company_some, hs, hmid]
    · intro h1 h2
      have hstart : startupHit s = false := by
        simp only [startupHit]
        rw [h1, h2]
        rfl
      simp [categorize_company_some, hstart, hmid]

/-- Witness for `categorize_company_c4` at concrete inputs. -/
theorem categorize_company_c4_witness :
    categorize_company (some "11-50 employees") = "Startup" ∧
    categorize_company (some "201-500 employees") ≠ "Enterprise" :=
  ⟨(categorize_company_c4.2.1 "11-50 employees").1 (by decide),
   (categorize_company_c4.2.2.2 "201-500 employees" (by decide)).1⟩

/-- Python `str.split(";")`: split at every semicolon; a string with no
semicolon yields one segment, so the result is never empty. -/
def splitSemi : List Char → List (List Char)
  | [] => [[]]
  | c :: t =>
    if c = ';' then [] :: splitSemi t
    else
      match splitSemi t with
      | [] => [[c]]
      | h :: r => (c :: h) :: r

/-- The flattened list comprehension inside `count_items`
(`src/data_processing.py` lines 97-103): drop missing rows, split each row at
semicolons, strip each token, keep tokens that are non-empty after stripping. -/
def flatTokens (series : List (Option String)) : List String :=
  (series.filterMap id).flatMap fun s =>
    ((splitSemi s.toList).map fun tok => String.mk (stripChars tok)).filter
      fun t => t ≠ ""

/-- `count_items` from `src/data_processing.py` (lines 83-104): the resulting
`Counter` is modelled as the function giving each token its frequency. -/
def count_items (series : List (Option String)) : String → ℕ :=
  fun t => (flatTokens series).count t

example : flatTokens [some "Python;Go", none, some "Go; Rust "] =
    ["Python", "Go", "Go", "Rust"] := by decide

lemma count_items_token_mem {series : List (Option String)} {t : String}
    (h : count_items series t ≠ 0) : t ∈ flatTokens series := by
  simp only [count_items] at h
  exact List.count_pos_iff.mp (Nat.pos_of_ne_zero h)

/-- C6: `count_items` maps each distinct trimmed token to its occurrence count;
missing rows contribute nothing, tokens empty after trimming are discarded, and
the rows `["Python;Go", missing, "Go; Rust "]` yield exactly
Python ↦ 1, Go ↦ 2, Rust ↦ 1 with every other token absent. -/
theorem count_items_c6 :
    (∀ (pre post : List (Option String)) (t : String),
      count_items (pre ++ none :: post) t = count_items (pre ++ post) t) ∧
    (∀ series : List (Option String), count_items series "" = 0) ∧
    count_items [some "Python;Go", none, some "Go; Rust "] "Python" = 1 ∧
    count_items [some "Python;Go", none, some "Go; Rust "] "Go" = 2 ∧
    count_items [some "Python;Go", none, some "Go; Rust "] "Rust" = 1 ∧
    (∀ t : String, count_items [some "Python;Go", none, some "Go; Rust "] t ≠ 0 →
      t = "Python" ∨ t = "Go" ∨ t = "Rust") := by
  refine ⟨?_, ?_, by decide, by decide, by decide, ?_⟩
  · intro pre post t
    simp [count_items, flatTokens, List.filterMap_append]
  · intro series
    by_contra hne
    have hmem := count_items_token_mem hne
    simp only [flatTokens, List.mem_flatMap, List.mem_filter] at hmem
    obtain ⟨s, -, -, hkeep⟩ := hmem
    simp at hkeep
  · intro t h
    have hmem := count_items_token_mem h
    rw [show flatTokens [some "Python;Go", none, some "Go; Rust "] =
      ["Python", "Go", "Go", "Rust"] from by decide] at hmem
    simpa using hmem

/-- Witness for `count_items_c6` at the token "Go". -/
theorem count_items_c6_witness :
    ("Go" : String) = "Python" ∨ ("Go" : String) = "Go" ∨ ("Go" : String) = "Rust" :=
  count_items_c6.2.2.2.2.2 "Go" (by decide)

/-- A row given to `explode_column`: the two columns the function selects — the
semicolon-delimited column and the key (country) column. -/
structure ERow where
  item : Option String
  country : Option String
  deriving DecidableEq

/-- A row of `explode_column`'s result: one token paired with the preserved
key-column value. -/
structure EOut where
  item : String
  country : Option String
  deriving DecidableEq

/-- `explode_column` from `src/data_processing.py` (lines 107-127), stage by
stage: select the two columns and `dropna()` (which drops a row when EITHER
column is missing), split the delimited column at semicolons, explode, then
strip each token. -/
def explode_column (df : List ERow) : List EOut :=
  let kept := df.filter fun r => r.item.isSome && r.country.isSome
  let split := kept.map fun r => ((splitSemi (r.item.getD "").toList).map String.mk, r.country)
  let exploded := split.flatMap fun p =>
    p.1.map fun tok => ({ item := tok, country := p.2 } : EOut)
  exploded.map fun o => { o with item := String.mk (stripChars o.item.toList) }

/-- Modelled from the spec's amended reading of the Row Exploder: a row
survives exactly when BOTH the delimited column and the key column are
present, and then contributes one row per trimmed token. -/
def explodeRows (df : List ERow) : List EOut :=
  df.flatMap fun r =>
    match r.item, r.country with
    | some s, some c =>
      (splitSemi s.toList).map fun tok =>
        ({ item := String.mk (stripChars tok), country := some c } : EOut)
    | _, _ => []

lemma explode_column_cons (r : ERow) (df : List ERow) :
    explode_column (r :: df) =
      (if r.item.isSome && r.country.isSome then
        (splitSemi (r.item.getD "").toList).map fun tok =>
          ({ item := String.mk (stripChars tok), country := r.country } : EOut)
      else []) ++ explode_column df := by
  simp only [explode_column, List.filter_cons]
  split
  · simp [List.map_cons, List.flatMap_cons, List.map_append, List.map_map, Function.comp]
  · simp

/-- C7 counterexample: a row whose delimited column is present but whose key
column is missing is dropped entirely, contradicting "drops exactly the rows
where the delimited column is missing". -/
theorem explode_column_c7_counterexample :
    explode_column [⟨some "Python", none⟩] = [] ∧
    ([] : List EOut) ≠ [⟨"Python", none⟩] := by
  refine ⟨by decide, by decide⟩

/-- C7 (amended): `explode_column` drops exactly the rows where the delimited
column OR the key column is missing, and replaces each remaining row by one
row per semicolon-split token, trimmed and paired with the row's original key
value; tokens empty after trimming are not filtered and pass through as empty
strings. -/
theorem explode_column_c7 :
    (∀ df : List ERow, explode_column df = explodeRows df) ∧
    explode_column [⟨some "a; ;b", some "X"⟩] =
      [⟨"a", some "X"⟩, ⟨"", some "X"⟩, ⟨"b", some "X"⟩] := by
  constructor
  · intro df
    induction df with
    | nil => rfl
    | cons r df ih =>
      rw [explode_column_cons, ih]
      simp only [explodeRows, List.flatMap_cons]
      congr 1
      match hi : r.item, hc : r.country with
      | some s, some c => simp
      | some s, none => simp
      | none, some c => simp
      | none, none => simp
  · decide

/-- A row of a table passed through `clean_age_column`: the age column plus
the two columns the function writes (modelled as `Value.missing` before the
function has produced them). -/
structure AgeRow where
  age : Value
  ageCleaned : Value
  ageBin : Value
  deriving DecidableEq

/-- The `age_bin_map` dictionary of `clean_age_column`
(`src/data_processing.py` lines 188-197); the Python `None` entry is the
missing marker. -/
def ageBinMap : List (String × Value) :=
  [("<18", .str "<25"), ("18-24", .str "<25"), ("25-34", .str "25-34"),
   ("35-44", .str "35-44"), ("45-54", .str "45-54"), ("55-64", .str "55+"),
   ("65 or older", .str "55+"), ("Prefer not to say", .missing)]

/-- `Series.map(age_bin_map)` on one cleaned string: an exact-match lookup,
missing when the key is absent. -/
def lookupBin (s : String) : Value :=
  match ageBinMap.find? fun p => p.1 == s with
  | some p => p.2
  | none => .missing

/-- The string pipeline of `clean_age_column`: replace " years old" by "",
replace "Under " by "<", strip. -/
def cleanAgeStr (s : String) : String :=
  pyStrip (pyReplace (pyReplace s " years old" "") "Under " "<")

/-- One cell of the `Age_cleaned` column in the `data_processing.py` version:
the pandas `.str` accessor applies the string pipeline to text cells and
yields missing for every non-text cell (missing or numeric). -/
def cleanOneDp (v : Value) : Value :=
  match v with
  | .str s => .str (cleanAgeStr s)
  | _ => .missing

/-- `Series.map(age_bin_map)` on one cell of `Age_cleaned`: non-text cells
(missing) and absent keys map to missing. -/
def binOfV (v : Value) : Value :=
  match v with
  | .str s => lookupBin s
  | _ => .missing

/-- `clean_age_column` from `src/data_processing.py` (lines 160-201): writes
`Age_cleaned` and `AgeBin` from the age column, leaving the age column
untouched.  No text coercion is applied to non-text cells. -/
def clean_age_column (t : List AgeRow) : List AgeRow :=
  t.map fun r =>
    { age := r.age, ageCleaned := cleanOneDp r.age, ageBin := binOfV (cleanOneDp r.age) }

/-- Python `str(...)` on a cell value, as produced by `astype(str)` in the
standalone script: text is unchanged, the missing marker renders as "nan",
and a numeric cell renders as its decimal text (no claim depends on the exact
numeric rendering). -/
def pyStrOfValue : Value → String
  | .str s => s
  | .num q => toString q
  | .missing => "nan"

/-- `clean_age_column` from `src/save_visualizations_standalone.py` (lines
85-113): identical to the modular version except that the age column is first
coerced to text with `astype(str)`, so `Age_cleaned` is always text. -/
def clean_age_column_standalone (t : List AgeRow) : List AgeRow :=
  t.map fun r =>
    { age := r.age, ageCleaned := .str (cleanAgeStr (pyStrOfValue r.age)),
      ageBin := lookupBin (cleanAgeStr (pyStrOfValue r.age)) }

example : cleanAgeStr "Under 18 years old" = "<18" := by decide
example : cleanAgeStr "Under 18" = "<18" := by decide
example : lookupBin "<18" = .str "<25" := by decide
example : cleanAgeStr "nan" = "nan" := by decide

/-- C5 counterexample: the `data_processing.py` `clean_age_column` does not
coerce non-text input to text: on a missing age cell the cleaned column holds
the missing marker, not the text "nan" that coercion (as in the standalone
script) would produce. -/
theorem clean_age_column_c5_counterexample :
    (clean_age_column [⟨.missing, .missing, .missing⟩]).map AgeRow.ageCleaned =
      [Value.missing] ∧
    Value.missing ≠ Value.str "nan" := by
  refine ⟨by decide, by decide⟩

/-- C5 (amended): `clean_age_column` cleans the age text (strip " years old",
rewrite "Under " to "<", trim) and bins it by exact lookup: "Under 18" gives
cleaned "<18" and bin "<25", "65 or older" gives bin "55+", "Prefer not to
say" gives a missing bin, any cleaned value outside the lookup table gives a
missing bin, never an error.  Non-text cells are coerced to text only in the
standalone version; the modular version instead propagates missing through
the string operations and the bin lookup. -/
theorem clean_age_column_c5 :
    clean_age_column [⟨.str "Under 18", .missing, .missing⟩] =
      [⟨.str "Under 18", .str "<18", .str "<25"⟩] ∧
    clean_age_column [⟨.str "65 or older", .missing, .missing⟩] =
      [⟨.str "65 or older", .str "65 or older", .str "55+"⟩] ∧
    clean_age_column [⟨.str "Prefer not to say", .missing, .missing⟩] =
      [⟨.str "Prefer not to say", .str "Prefer not to say", .missing⟩] ∧
    (∀ s : String, s ∉ ageBinMap.map Prod.fst → binOfV (.str s) = .missing) ∧
    (∀ v : Value, (∀ s : String, v ≠ .str s) →
      (clean_age_column [⟨v, .missing, .missing⟩]).map AgeRow.ageCleaned = [Value.missing] ∧
      (clean_age_column_standalone [⟨v, .missing, .missing⟩]).map AgeRow.ageCleaned =
        [Value.str (cleanAgeStr (pyStrOfValue v))]) := by
  refine ⟨by decide, by decide, by decide, ?_, ?_⟩
  · intro s hs
    have hfind : ageBinMap.find? (fun p => p.1 == s) = none := by
      rw [List.find?_eq_none]
      intro p hp hbeq
      exact hs (List.mem_map.mpr ⟨p, hp, by simpa using beq_iff_eq.mp hbeq⟩)
    simp [binOfV, lookupBin, hfind]
  · intro v hv
    match v with
    | .str s => exact absurd rfl (hv s)
    | .num q => exact ⟨by simp [clean_age_column, cleanOneDp], by simp [clean_age_column_standalone]⟩
    | .missing => exact ⟨by decide, by decide⟩

/-- Witness for `clean_age_column_c5` at concrete inputs. -/
theorem clean_age_column_c5_witness :
    binOfV (.str "not a real age band") = .missing ∧
    (clean_age_column [⟨Value.num 25, .missing, .missing⟩]).map AgeRow.ageCleaned =
      [Value.missing] :=
  ⟨clean_age_column_c5.2.2.2.1 "not a real age band" (by decide),
   (clean_age_column_c5.2.2.2.2 (Value.num 25) (fun s h => by cases h)).1⟩


/-- Digits-to-number accumulator used by the numeric parser. -/
def digitsToNat (l : List Char) : ℕ :=
  l.foldl (fun a c => a * 10 + (c.toNat - 48)) 0

/-- Models the decimal core of `pd.to_numeric(..., errors="coerce")` on one
text cell: optional sign, integer part, optional fractional part, surrounding
whitespace tolerated; anything else is unparseable and coerces to missing. -/
def pyParseNum (s : String) : Option ℚ :=
  let l := stripChars s.toList
  let signed : ℚ × List Char :=
    match l with
    | '-' :: t => (-1, t)
    | '+' :: t => (1, t)
    | _ => (1, l)
  let ip := signed.2.takeWhile Char.isDigit
  let rest := signed.2.dropWhile Char.isDigit
  match rest with
  | [] => if ip.isEmpty then none else some (signed.1 * digitsToNat ip)
  | '.' :: frac =>
    if frac.all Char.isDigit && !(ip.isEmpty && frac.isEmpty) then
      some (signed.1 * ((digitsToNat ip : ℚ) + (digitsToNat frac : ℚ) / (10 : ℚ) ^ frac.length))
    else none
  | _ => none

/-- `pd.to_numeric(..., errors="coerce")` on one cell: numbers and the missing
marker pass through, text is parsed or coerced to missing. -/
def toNumericValue : Value → Value
  | .num q => .num q
  | .missing => .missing
  | .str s =>
    match pyParseNum s with
    | some q => .num q
    | none => .missing

/-- A pandas DataFrame seen column-wise: column name paired with cell list. -/
abbrev DFrame : Type := List (String × List Value)

/-- `df[col]` when the column exists. -/
def getCol? (df : DFrame) (c : String) : Option (List Value) :=
  (List.find? (fun p => p.1 == c) df).map Prod.snd

/-- `df_cleaned[col] = vs`. -/
def setCol (df : DFrame) (c : String) (vs : List Value) : DFrame :=
  List.map (fun p => if p.1 == c then (p.1, vs) else p) df

/-- One iteration of the loop in `clean_numeric_columns`
(`src/data_processing.py` lines 76-78): reads the column from the ORIGINAL
frame `src`, writes into the accumulating copy; columns absent from the frame
are skipped. -/
def numStep (src : DFrame) (acc : DFrame) (c : String) : DFrame :=
  match getCol? src c with
  | some vs => setCol acc c (vs.map toNumericValue)
  | none => acc

/-- `clean_numeric_columns` from `src/data_processing.py` (lines 55-80). -/
def clean_numeric_columns (df : DFrame) (cols : List String) : DFrame :=
  cols.foldl (numStep df) df

/-- Pointwise closed form of the loop: a column is converted exactly when its
name is listed in `cols` and present in `src`. -/
def numApplied (src : DFrame) (cols : List String) (p : String × List Value) :
    String × List Value :=
  if ((cols.any fun c => p.1 == c) && (getCol? src p.1).isSome) = true then
    (p.1, ((getCol? src p.1).getD []).map toNumericValue)
  else p

lemma numApplied_fst (src : DFrame) (cols : List String) (p : String × List Value) :
    (numApplied src cols p).1 = p.1 := by
  unfold numApplied
  split <;> rfl

lemma numApplied_of_some {src : DFrame} {cols : List String} {p : String × List Value}
    {vs : List Value} (hany : (cols.any fun c => p.1 == c) = true)
    (h : getCol? src p.1 = some vs) :
    numApplied src cols p = (p.1, vs.map toNumericValue) := by
  unfold numApplied
  rw [h]
  simp [hany]

lemma numApplied_of_none_col {src : DFrame} {cols : List String}
    {p : String × List Value} (h : getCol? src p.1 = none) :
    numApplied src cols p = p := by
  unfold numApplied
  rw [h]
  simp

lemma numApplied_of_not_listed {src : DFrame} {cols : List String}
    {p : String × List Value} (h : (cols.any fun c => p.1 == c) = false) :
    numApplied src cols p = p := by
  unfold numApplied
  rw [h]
  simp

lemma foldl_numStep (src : DFrame) :
    ∀ (cols : List String) (acc : DFrame),
      cols.foldl (numStep src) acc = List.map (numApplied src cols) acc := by
  intro cols
  induction cols with
  | nil =>
    intro acc
    rw [List.foldl_nil]
    have h : ∀ p ∈ acc, numApplied src [] p = p :=
      fun p _ => numApplied_of_not_listed (by simp)
    rw [List.map_congr_left h]
    simp
  | cons c cs ih =>
    intro acc
    rw [List.foldl_cons, ih]
    cases hs : getCol? src c with
    | none =>
      simp only [numStep, hs]
      apply List.map_congr_left
      intro p _
      by_cases hpc : (p.1 == c) = true
      · have hc : p.1 = c := beq_iff_eq.mp hpc
        unfold numApplied
        rw [hc, hs]
        simp
      · unfold numApplied
        rw [Bool.not_eq_true] at hpc
        simp only [List.any_cons, hpc, Bool.false_or]
    | some vs =>
      simp only [numStep, hs, setCol, List.map_map]
      apply List.map_congr_left
      intro p _
      simp only [Function.comp]
      by_cases hpc : (p.1 == c) = true
      · have hc : p.1 = c := beq_iff_eq.mp hpc
        rw [if_pos hpc]
        have hleft : numApplied src cs (p.1, vs.map toNumericValue) =
            numApplied src (c :: cs) p := by
          by_cases hcs : (cs.any fun c' => p.1 == c') = true
          · rw [numApplied_of_some (p := (p.1, vs.map toNumericValue)) hcs (by rw [hc]; exact hs),
              numApplied_of_some (p := p) (by simp [List.any_cons, hpc]) (by rw [hc]; exact hs)]
          · rw [Bool.not_eq_true] at hcs
            rw [numApplied_of_not_listed (p := (p.1, vs.map toNumericValue)) hcs,
              numApplied_of_some (p := p) (by simp [List.any_cons, hpc]) (by rw [hc]; exact hs)]
        exact hleft
      · rw [if_neg hpc]
        rw [Bool.not_eq_true] at hpc
        unfold numApplied
        simp only [List.any_cons, hpc, Bool.false_or]

lemma clean_numeric_columns_eq (df : DFrame) (cols : List String) :
    clean_numeric_columns df cols = List.map (numApplied df cols) df :=
  foldl_numStep df cols df

lemma toNumericValue_idem (v : Value) :
    toNumericValue (toNumericValue v) = toNumericValue v := by
  cases v with
  | str s =>
    simp only [toNumericValue]
    cases hp : pyParseNum s
    · rfl
    · rfl
  | num q => rfl
  | missing => rfl

lemma getCol?_mapNum (df : DFrame) (cols : List String) (c : String) :
    getCol? (List.map (numApplied df cols) df) c =
      if (cols.any fun c' => c == c') = true then
        (getCol? df c).map (fun vs => vs.map toNumericValue)
      else getCol? df c := by
  unfold getCol?
  rw [List.find?_map]
  have hpred : ((fun p : String × List Value => p.1 == c) ∘ numApplied df cols) =
      fun p : String × List Value => p.1 == c := by
    funext p
    simp [Function.comp, numApplied_fst]
  rw [hpred]
  cases hf : List.find? (fun p : String × List Value => p.1 == c) df with
  | none => simp
  | some q =>
    have hq := List.find?_some hf
    have hqc : q.1 = c := beq_iff_eq.mp hq
    simp only [Option.map_some']
    by_cases hcs : (cols.any fun c' => c == c') = true
    · have hget : getCol? df q.1 = some q.2 := by
        unfold getCol?
        rw [hqc, hf]
        rfl
      rw [numApplied_of_some (by rw [hqc]; exact hcs) hget]
      rw [if_pos hcs]
    · rw [Bool.not_eq_true] at hcs
      rw [numApplied_of_not_listed (by rw [hqc]; exact hcs)]
      rw [if_neg (by rw [hcs]; exact Bool.false_ne_true)]

/-- C8: both cleaners are idempotent: applying `clean_numeric_columns` (for
any column list) or `clean_age_column` to its own output yields the same
table again. -/
theorem clean_idempotent_c8 :
    (∀ (df : DFrame) (cols : List String),
      clean_numeric_columns (clean_numeric_columns df cols) cols =
        clean_numeric_columns df cols) ∧
    (∀ t : List AgeRow, clean_age_column (clean_age_column t) = clean_age_column t) := by
  constructor
  · intro df cols
    rw [clean_numeric_columns_eq (clean_numeric_columns df cols) cols,
      clean_numeric_columns_eq df cols, List.map_map]
    apply List.map_congr_left
    intro q _
    simp only [Function.comp]
    by_cases hany : (cols.any fun c => q.1 == c) = true
    · cases hdf : getCol? df q.1 with
      | none =>
        rw [numApplied_of_none_col hdf]
        apply numApplied_of_none_col
        rw [getCol?_mapNum, if_pos hany, hdf]
        rfl
      | some vs =>
        rw [numApplied_of_some hany hdf]
        have hY : getCol? (List.map (numApplied df cols) df)
            (q.1, vs.map toNumericValue).1 = some (vs.map toNumericValue) := by
          rw [getCol?_mapNum, if_pos hany, hdf]
          rfl
        rw [numApplied_of_some (p := (q.1, vs.map toNumericValue)) hany hY]
        rw [List.map_map]
        apply congrArg
        apply List.map_congr_left
        intro v _
        exact toNumericValue_idem v
    · rw [Bool.not_eq_true] at hany
      rw [numApplied_of_not_listed hany, numApplied_of_not_listed hany]
  · intro t
    simp only [clean_age_column, List.map_map]
    apply List.map_congr_left
    intro r _
    rfl

/-- A survey row, restricted to the columns the aggregation functions touch;
numeric columns hold post-normalization values (finite number or missing). -/
structure SurveyRow where
  respId : Option ℚ
  country : Option String
  comp : Option ℚ
  yearsPro : Option ℚ
  jobSat : Option ℚ
  deriving DecidableEq

/-- The group of rows for one country key; pandas `groupby("Country")` drops
rows whose key is missing, so only `some c` rows are ever grouped. -/
def sgroup (df : List SurveyRow) (c : String) : List SurveyRow :=
  df.filter fun r => r.country == some c

/-- The distinct non-missing country keys of a frame (`groupby` group keys;
pandas orders them sorted, but no stated property observes group order). -/
def countries (df : List SurveyRow) : List String :=
  (df.filterMap SurveyRow.country).dedup

/-- Pandas `median` over the non-missing values of a group: middle of the
sorted list, mean of the two middle values when even, missing when empty. -/
def median (l : List ℚ) : Option ℚ :=
  let s := l.insertionSort (· ≤ ·)
  match s with
  | [] => none
  | _ =>
    if s.length % 2 = 1 then some (s.getD (s.length / 2) 0)
    else some ((s.getD (s.length / 2 - 1) 0 + s.getD (s.length / 2) 0) / 2)

example : median [1, 2, 3] = some 2 := by decide
example : median [] = none := by decide

lemma median_pair_example : median ([some 1, none, some 3].filterMap id) = some 2 := by
  have h1 : median ([some 1, none, some 3].filterMap id) = some ((1 + 3 : ℚ) / 2) := rfl
  rw [h1]
  norm_num

/-- Result of an IEEE float division as pandas performs it: a finite value, a
signed infinity, or NaN (NaN doubles as the missing marker of float columns). -/
inductive EVal where
  | fin (q : ℚ)
  | inf
  | ninf
  | nan
  deriving DecidableEq

/-- Float division of two possibly-missing values, following IEEE/NumPy rules:
a missing operand yields NaN, a zero denominator yields a signed infinity (NaN
when the numerator is zero too); no exception is ever raised. -/
def pyDiv (a b : Option ℚ) : EVal :=
  match a, b with
  | some x, some y =>
    if y = 0 then
      if x = 0 then .nan else if 0 < x then .inf else .ninf
    else .fin (x / y)
  | _, _ => .nan

/-- A cost-of-living row: country key and the two index columns. -/
structure CRow where
  country : Option String
  costIdx : Option ℚ
  purchIdx : Option ℚ
  deriving DecidableEq

/-- A row of `merge_comp_col`'s result.  `costIdx`/`purchIdx` stay `Option`
so that the post-join dropna step is observable; `score` is the
`AffordabilityScore` column (NaN before it is assigned). -/
structure MRow where
  country : String
  medianComp : Option ℚ
  count : ℕ
  costIdx : Option ℚ
  purchIdx : Option ℚ
  score : EVal
  deriving DecidableEq

/-- `merge_comp_col` from `src/data_processing.py` (lines 204-243): per-country
median compensation and response count, left-merge with the cost-of-living
table on the country key (an unmatched aggregate row survives with missing
index fields; each matching cost row produces one output row), drop rows
missing either index, then compute the affordability score column. -/
def merge_comp_col (survey : List SurveyRow) (col : List CRow) : List MRow :=
  let aggs : List MRow := (countries survey).map fun c =>
    { country := c,
      medianComp := median ((sgroup survey c).filterMap SurveyRow.comp),
      count := (sgroup survey c).countP fun r => r.respId.isSome,
      costIdx := none, purchIdx := none, score := .nan }
  let joined : List MRow := aggs.flatMap fun a =>
    let ms := col.filter fun r => r.country == some a.country
    if ms = [] then [a]
    else ms.map fun m => { a with costIdx := m.costIdx, purchIdx := m.purchIdx }
  let kept := joined.filter fun m => m.costIdx.isSome && m.purchIdx.isSome
  kept.map fun m => { m with score := pyDiv m.medianComp m.costIdx }

lemma merge_example_1250 :
    merge_comp_col
      [⟨some 1, some "Utopia", some 100000, none, none⟩]
      [⟨some "Utopia", some 80, some 50⟩] =
    [⟨"Utopia", some 100000, 1, some 80, some 50, .fin 1250⟩] := by
  have h1 :
      merge_comp_col
        [⟨some 1, some "Utopia", some 100000, none, none⟩]
        [⟨some "Utopia", some 80, some 50⟩] =
      [⟨"Utopia", some 100000, 1, some 80, some 50,
        pyDiv (some 100000) (some 80)⟩] := rfl
  have h2 : pyDiv (some 100000) (some 80) = .fin 1250 := by
    simp only [pyDiv]
    rw [if_neg (by norm_num)]
    norm_num
  rw [h1, h2]

/-- C1 counterexample: with median compensation 100000 and cost index 0, the
affordability score is positive infinity, not the missing marker (NaN), so a
zero denominator is not guarded by propagating missing. -/
theorem merge_comp_col_c1_counterexample :
    (merge_comp_col [⟨some 1, some "A", some 100000, none, none⟩]
        [⟨some "A", some 0, some 10⟩]).map MRow.score = [EVal.inf] ∧
    EVal.inf ≠ EVal.nan := by
  refine ⟨by decide, by decide⟩

/-- C1 (amended): every merged row's affordability score is the float division
of its median compensation by its cost index; the denominator is never missing
in an output row (such rows were dropped), a missing numerator propagates to a
missing (NaN) score, a zero denominator with positive numerator yields positive
infinity (no exception), and for compensation 100000 with cost index 80 the
score is exactly 1250. -/
theorem merge_comp_col_c1 :
    (∀ (survey : List SurveyRow) (col : List CRow) (m : MRow),
      m ∈ merge_comp_col survey col →
        m.score = pyDiv m.medianComp m.costIdx ∧
        m.costIdx.isSome = true ∧
        (m.medianComp = none → m.score = .nan) ∧
        (∀ x : ℚ, m.medianComp = some x → m.costIdx = some 0 → 0 < x →
          m.score = .inf)) ∧
    (merge_comp_col [⟨some 1, some "Utopia", some 100000, none, none⟩]
        [⟨some "Utopia", some 80, some 50⟩]).map MRow.score = [EVal.fin 1250] := by
  constructor
  · intro survey col m hm
    simp only [merge_comp_col] at hm
    obtain ⟨m0, hm0, rfl⟩ := List.mem_map.mp hm
    have hcond := (List.mem_filter.mp hm0).2
    refine ⟨rfl, ?_, ?_, ?_⟩
    · exact (Bool.and_eq_true_iff.mp hcond).1
    · intro h
      show pyDiv m0.medianComp m0.costIdx = .nan
      rw [show m0.medianComp = none from h]
      cases m0.costIdx <;> rfl
    · intro x hx h0 hpos
      show pyDiv m0.medianComp m0.costIdx = .inf
      rw [show m0.medianComp = some x from hx, show m0.costIdx = some 0 from h0]
      simp [pyDiv, ne_of_gt hpos, hpos]
  · rw [merge_example_1250]
    rfl

/-- Witness for `merge_comp_col_c1` at a concrete zero-denominator input. -/
theorem merge_comp_col_c1_witness :
    (⟨"A", some 100000, 1, some 0, some 10, .inf⟩ : MRow).score = EVal.inf :=
  (merge_comp_col_c1.1 [⟨some 1, some "A", some 100000, none, none⟩]
    [⟨some "A", some 0, some 10⟩] ⟨"A", some 100000, 1, some 0, some 10, .inf⟩
    (by decide)).2.2.2 100000 rfl rfl (by decide)

/-- C2: every row of `merge_comp_col`'s result has both cost-of-living index
values present, and a survey country with no matching country in the
cost-of-living table never appears in the result (inner-join outcome despite
the left-join mechanics). -/
theorem merge_comp_col_c2 :
    (∀ (survey : List SurveyRow) (col : List CRow),
      (merge_comp_col survey col).all
        (fun m => m.costIdx.isSome && m.purchIdx.isSome) = true) ∧
    (∀ (survey : List SurveyRow) (col : List CRow) (c : String),
      (∀ r ∈ col, r.country ≠ some c) →
      ∀ m ∈ merge_comp_col survey col, m.country ≠ c) := by
  constructor
  · intro survey col
    rw [List.all_eq_true]
    intro m hm
    simp only [merge_comp_col] at hm
    obtain ⟨m0, hm0, rfl⟩ := List.mem_map.mp hm
    exact (List.mem_filter.mp hm0).2
  · intro survey col c hcol m hm heq
    simp only [merge_comp_col] at hm
    obtain ⟨m0, hm0, rfl⟩ := List.mem_map.mp hm
    obtain ⟨hj, hcond⟩ := List.mem_filter.mp hm0
    obtain ⟨a, ha, hmem⟩ := List.mem_flatMap.mp hj
    have heq0 : m0.country = c := heq
    by_cases hms : List.filter (fun r => r.country == some a.country) col = []
    · rw [if_pos hms, List.mem_singleton] at hmem
      obtain ⟨c', -, hac⟩ := List.mem_map.mp ha
      rw [hmem, ← hac] at hcond
      simp at hcond
    · rw [if_neg hms] at hmem
      obtain ⟨cr, hcr, rfl⟩ := List.mem_map.mp hmem
      obtain ⟨hcrcol, hcrc⟩ := List.mem_filter.mp hcr
      have h1 : cr.country = some a.country := by simpa using hcrc
      have h2 : a.country = c := heq0
      exact hcol cr hcrcol (by rw [h1, h2])

/-- Witness for `merge_comp_col_c2`: survey has countries "A" and "B", the
cost table only "B"; the surviving row is for "B", not "A". -/
theorem merge_comp_col_c2_witness :
    (⟨"B", none, 1, some 5, some 6, .nan⟩ : MRow).country ≠ "A" :=
  merge_comp_col_c2.2
    [⟨some 1, some "A", none, none, none⟩, ⟨some 2, some "B", none, none, none⟩]
    [⟨some "B", some 5, some 6⟩] "A" (by decide)
    ⟨"B", none, 1, some 5, some 6, .nan⟩ (by decide)

/-- A row of `create_regional_stats`'s result, in the column order of the
`agg` call. -/
structure StatRow where
  country : String
  medianComp : Option ℚ
  medianExp : Option ℚ
  count : ℕ
  medianJobSat : Option ℚ
  deriving DecidableEq

/-- `create_regional_stats` from `src/data_processing.py` (lines 246-276):
group by country (missing keys dropped by pandas `groupby`), aggregate the
three medians over non-missing values and the non-missing `ResponseId` count,
then keep only countries with `Count >= min_count` (the source's default for
`min_count` is 50). -/
def create_regional_stats (df : List SurveyRow) (minCount : ℕ) : List StatRow :=
  ((countries df).map fun c =>
    ({ country := c,
       medianComp := median ((sgroup df c).filterMap SurveyRow.comp),
       medianExp := median ((sgroup df c).filterMap SurveyRow.yearsPro),
       count := (sgroup df c).countP fun r => r.respId.isSome,
       medianJobSat := median ((sgroup df c).filterMap SurveyRow.jobSat) } : StatRow)).filter
    fun s => minCount ≤ s.count

/-- C3: every reported row of `create_regional_stats` carries the non-missing
identifier count of its country group and the medians over the non-missing
values of each field (an all-missing group yields a missing median, not an
error); a country whose count falls below `min_count` is absent; median of
[1,2,3] is 2 and median of [1, missing, 3] is 2. -/
theorem create_regional_stats_c3 :
    (∀ (df : List SurveyRow) (minCount : ℕ) (s : StatRow),
      s ∈ create_regional_stats df minCount →
        s.count = (sgroup df s.country).countP (fun r => r.respId.isSome) ∧
        s.medianComp = median ((sgroup df s.country).filterMap SurveyRow.comp) ∧
        s.medianExp = median ((sgroup df s.country).filterMap SurveyRow.yearsPro) ∧
        s.medianJobSat = median ((sgroup df s.country).filterMap SurveyRow.jobSat) ∧
        minCount ≤ s.count) ∧
    (∀ (df : List SurveyRow) (minCount : ℕ) (c : String),
      (sgroup df c).countP (fun r => r.respId.isSome) < minCount →
      ∀ s ∈ create_regional_stats df minCount, s.country ≠ c) ∧
    median [1, 2, 3] = some 2 ∧
    median ([some 1, none, some 3].filterMap id) = some 2 ∧
    median [] = none := by
  refine ⟨?_, ?_, by decide, median_pair_example, by decide⟩
  · intro df minCount s hs
    simp only [create_regional_stats] at hs
    obtain ⟨hmem, hcnt⟩ := List.mem_filter.mp hs
    obtain ⟨c', hc', rfl⟩ := List.mem_map.mp hmem
    exact ⟨rfl, rfl, rfl, rfl, by simpa using hcnt⟩
  · intro df minCount c hlt s hs heq
    simp only [create_regional_stats] at hs
    obtain ⟨hmem, hcnt⟩ := List.mem_filter.mp hs
    obtain ⟨c', hc', rfl⟩ := List.mem_map.mp hmem
    have hcc : c' = c := heq
    subst hcc
    have hge : minCount ≤ (sgroup df c').countP (fun r => r.respId.isSome) := by
      simpa using hcnt
    exact absurd hlt (Nat.not_lt.mpr hge)

/-- Witness for `create_regional_stats_c3`: two respondents for "A", one
identifier-less row for "B", threshold 1 — "A" is reported with count 2,
"B" is absent. -/
theorem create_regional_stats_c3_witness :
    (1 : ℕ) ≤ (⟨"A", none, none, 2, none⟩ : StatRow).count ∧
    (⟨"A", none, none, 2, none⟩ : StatRow).country ≠ "B" :=
  ⟨(create_regional_stats_c3.1
      [⟨some 1, some "A", none, none, none⟩, ⟨some 2, some "A", none, none, none⟩,
       ⟨none, some "B", none, none, none⟩] 1
      ⟨"A", none, none, 2, none⟩ (by decide)).2.2.2.2,
   create_regional_stats_c3.2.1
      [⟨some 1, some "A", none, none, none⟩, ⟨some 2, some "A", none, none, none⟩,
       ⟨none, some "B", none, none, none⟩] 1 "B" (by decide)
      ⟨"A", none, none, 2, none⟩ (by decide)⟩

/-- A survey row as seen by `filter_top_countries`: the country key plus all
remaining cell data, kept abstract so "no row is altered" is meaningful. -/
structure TRow (α : Type) where
  country : Option String
  payload : α
  deriving DecidableEq

/-- `df["Country"].value_counts()`: occurrence count of each distinct
non-missing country (missing keys are dropped by `value_counts`). -/
def value_counts {α : Type} (df : List (TRow α)) : List (String × ℕ) :=
  ((df.filterMap TRow.country).dedup).map fun c =>
    (c, (df.filterMap TRow.country).count c)

/-- Sort the counts descending (`value_counts` returns counts in descending
order; tie order is unspecified in the source and unobserved here). -/
def sortCountsDesc (l : List (String × ℕ)) : List (String × ℕ) :=
  l.insertionSort fun p q => q.2 ≤ p.2

/-- `filter_top_countries` from `src/data_processing.py` (lines 279-296): take
the `n` countries with the highest row counts, then keep the rows whose
country is in that list; a missing country is never in the list (`isin` is
false for missing). -/
def filter_top_countries {α : Type} (df : List (TRow α)) (n : ℕ) : List (TRow α) :=
  let top := ((sortCountsDesc (value_counts df)).take n).map Prod.fst
  df.filter fun r =>
    match r.country with
    | some c => top.contains c
    | none => false

/-- C10: the result of `filter_top_countries` is a sublist of the input (no
row altered or invented), rows with a missing country never appear in it, and
missing-country rows influence neither the ranking nor the filtering: adding
one changes nothing. -/
theorem filter_top_countries_c10 :
    (∀ (α : Type) (df : List (TRow α)) (n : ℕ),
      (filter_top_countries df n).Sublist df) ∧
    (∀ (α : Type) (df : List (TRow α)) (n : ℕ),
      (filter_top_countries df n).all (fun r => r.country.isSome) = true) ∧
    (∀ (α : Type) (x : α) (df : List (TRow α)) (n : ℕ),
      value_counts (⟨none, x⟩ :: df) = value_counts df ∧
      filter_top_countries (⟨none, x⟩ :: df) n = filter_top_countries df n) := by
  refine ⟨?_, ?_, ?_⟩
  · intro α df n
    exact List.filter_sublist df
  · intro α df n
    rw [List.all_eq_true]
    intro r hr
    have hcond := (List.mem_filter.mp hr).2
    cases hc : r.country with
    | none => rw [hc] at hcond; simp at hcond
    | some c => rfl
  · intro α x df n
    have hvc : value_counts (⟨none, x⟩ :: df) = value_counts df := by
      simp [value_counts, List.filterMap_cons]
    refine ⟨hvc, ?_⟩
    simp only [filter_top_countries, hvc, List.filter_cons]
    rfl

/-- Inject a text-or-missing column value into `Value`. -/
def valueOfOpt : Option String → Value
  | none => .missing
  | some s => .str s

/-- `categorize_company` from `src/save_visualizations_standalone.py` (lines
69-82): identical to the modular version except the `str(org_size)` coercion,
which totalizes it over arbitrary cell values. -/
def categorize_company_standalone (orgSize : Value) : String :=
  match orgSize with
  | .missing => "Unknown"
  | v =>
    let t := orgNorm (pyStrOfValue v)
    if ["1-10", "11-50"].any (fun x => containsSub x.toList t) then "Startup"
    else if ["51-200", "201-500"].any (fun x => containsSub x.toList t) then "Mid-sized"
    else if ["500", "1000", "5000", "5000+"].any (fun x => containsSub x.toList t) then "Enterprise"
    else "Other"

/-- Is the cell a text value? -/
def isTextV : Value → Bool
  | .str _ => true
  | _ => false

/-- Is the cell text or the missing marker (the realistic content of the Age
column)? -/
def textOrMissingV : Value → Bool
  | .str _ => true
  | .missing => true
  | _ => false

/-- C9 counterexample: on a missing age cell the modular `clean_age_column`
and its standalone duplicate disagree — the modular version leaves
`Age_cleaned` missing, the standalone coerces it to the text "nan". -/
theorem standalone_c9_counterexample :
    clean_age_column [⟨Value.missing, Value.missing, Value.missing⟩] ≠
      clean_age_column_standalone [⟨Value.missing, Value.missing, Value.missing⟩] := by
  decide

/-- C9 (amended): `categorize_company` agrees with its standalone duplicate on
every text-or-missing input; `clean_age_column` agrees with its standalone
duplicate exactly on tables whose age cells are all text, and the two always
produce identical `AgeBin` columns on text-or-missing age cells — they differ
only in the `Age_cleaned` column for non-text cells. -/
theorem standalone_equiv_c9 :
    (∀ v : Option String,
      categorize_company v = categorize_company_standalone (valueOfOpt v)) ∧
    (∀ t : List AgeRow, (∀ r ∈ t, isTextV r.age = true) →
      clean_age_column t = clean_age_column_standalone t) ∧
    (∀ t : List AgeRow, (∀ r ∈ t, textOrMissingV r.age = true) →
      (clean_age_column t).map AgeRow.ageBin =
        (clean_age_column_standalone t).map AgeRow.ageBin) := by
  refine ⟨?_, ?_, ?_⟩
  · intro v
    cases v with
    | none => rfl
    | some s => rfl
  · intro t h
    apply List.map_congr_left
    intro r hr
    have hT := h r hr
    cases hage : r.age with
    | str s => rfl
    | num q => rw [hage] at hT; simp [isTextV] at hT
    | missing => rw [hage] at hT; simp [isTextV] at hT
  · intro t h
    simp only [clean_age_column, clean_age_column_standalone, List.map_map]
    apply List.map_congr_left
    intro r hr
    have hT := h r hr
    simp only [Function.comp]
    cases hage : r.age with
    | str s => rfl
    | num q => rw [hage] at hT; simp [textOrMissingV] at hT
    | missing => decide
  
/-- Witness for `standalone_equiv_c9` at concrete tables. -/
theorem standalone_equiv_c9_witness :
    clean_age_column [⟨Value.str "25-34", Value.missing, Value.missing⟩] =
      clean_age_column_standalone [⟨Value.str "25-34", Value.missing, Value.missing⟩] ∧
    (clean_age_column [⟨Value.missing, Value.missing, Value.missing⟩]).map AgeRow.ageBin =
      (clean_age_column_standalone
        [⟨Value.missing, Value.missing, Value.missing⟩]).map AgeRow.ageBin :=
  ⟨standalone_equiv_c9.2.1 [⟨Value.str "25-34", Value.missing, Value.missing⟩] (by decide),
   standalone_equiv_c9.2.2 [⟨Value.missing, Value.missing, Value.missing⟩] (by decide)⟩
